import Mathlib

/-!
Shallow embedding of `ipl_analysis.py` (IPL Cricket Data Analysis).

Tables are lists of records; pandas series operations (value_counts,
groupby/sum/count, sort_values, head, min/max, idxmax, isin) are modelled
as executable list functions.  Random draws of the synthetic fallback
generator are modelled by an abstract seeded stream `mtStream : Nat →
Nat → Nat` (seed ↦ position ↦ draw), reflecting that `np.random.seed(42)`
fixes the whole stream; the weighted choices are modelled as
stream-determined picks from their support lists.
-/

namespace IPL

/-- A row of `matches.csv` (schema of `generate_sample_data`). -/
structure MatchRow where
  id : Nat
  season : Nat
  city : String
  team1 : String
  team2 : String
  winner : Option String
  win_by_runs : Nat
  win_by_wickets : Nat
  player_of_match : String
  toss_winner : String
  toss_decision : String
  deriving Repr, DecidableEq

/-- A row of `deliveries.csv` (schema of `generate_sample_data`). -/
structure Delivery where
  match_id : Nat
  inning : Nat
  batting_team : String
  bowling_team : String
  batsman : String
  bowler : String
  batsman_runs : Nat
  extra_runs : Nat
  total_runs : Nat
  player_dismissed : Option String
  dismissal_kind : Option String
  deriving Repr, DecidableEq

/-! ### Pandas series primitives as list functions -/

/-- Distinct values of a list in order of first appearance. -/
def dedupFirst {α : Type} [DecidableEq α] : List α → List α
  | [] => []
  | x :: xs => x :: (dedupFirst xs).filter (fun y => decide (y ≠ x))

/-- Insert `x` into `l` before the first element `y` with `le x y`
(stable insertion). -/
def insertBy {α : Type} (le : α → α → Bool) (x : α) : List α → List α
  | [] => [x]
  | y :: ys => if le x y then x :: y :: ys else y :: insertBy le x ys

/-- Stable insertion sort with respect to the boolean relation `le`. -/
def sortBy {α : Type} (le : α → α → Bool) : List α → List α
  | [] => []
  | x :: xs => insertBy le x (sortBy le xs)

/-- Descending order on (key, aggregate) pairs, comparing aggregates:
`a` may come before `b` iff `b.2 ≤ a.2`. -/
def leCount {α : Type} (a b : α × Nat) : Bool := decide (b.2 ≤ a.2)

/-- Ascending order on pairs by their (linearly ordered) key. -/
def leKey {α β : Type} [LinearOrder α] (a b : α × β) : Bool := decide (a.1 ≤ b.1)

/-- `series.value_counts()`: count occurrences of each distinct value and
sort descending by count (`dropna` is applied by the caller where the
series is nullable). -/
def valueCounts {α : Type} [DecidableEq α] (l : List α) : List (α × Nat) :=
  sortBy leCount ((dedupFirst l).map (fun k => (k, l.count k)))

/-- `groupby(key)[col].agg(...)`: distinct keys sorted ascending (pandas
`sort=True` default), each paired with an aggregate of its group. -/
def groupbyAgg {R K : Type} [DecidableEq K] [LinearOrder K]
    (rows : List R) (key : R → K) (agg : List R → Nat) : List (K × Nat) :=
  (sortBy leKey ((dedupFirst (rows.map key)).map (fun k => (k, 0)))).map
    (fun p => (p.1, agg (rows.filter (fun r => decide (key r = p.1)))))

/-- Drop the nulls of a nullable series (pandas `dropna`). -/
def dropNone {α : Type} (l : List (Option α)) : List α := l.filterMap id

/-- Largest aggregate value occurring in a summary table (0 when empty). -/
def maxVal {K : Type} (l : List (K × Nat)) : Nat :=
  (l.map Prod.snd).foldr Nat.max 0

/-- `series.idxmax()`: key of the first entry attaining the maximal value. -/
def seriesIdxmax {K : Type} (l : List (K × Nat)) : Option K :=
  (l.find? (fun p => decide (maxVal l ≤ p.2))).map Prod.fst

/-! ### The seven aggregation routines -/

/-- `analysis_team_wins`: `matches['winner'].value_counts().head(8)`. -/
def analysis_team_wins (ms : List MatchRow) : List (String × Nat) :=
  (valueCounts (dropNone (ms.map MatchRow.winner))).take 8

/-- `analysis_season_matches`: `matches.groupby('season').size()`. -/
def analysis_season_matches (ms : List MatchRow) : List (Nat × Nat) :=
  groupbyAgg ms MatchRow.season List.length

/-- `analysis_top_batsmen`:
`deliveries.groupby('batsman')['batsman_runs'].sum().sort_values(ascending=False).head(10)`. -/
def analysis_top_batsmen (deliveries : List Delivery) : List (String × Nat) :=
  (sortBy leCount
    (groupbyAgg deliveries Delivery.batsman
      (fun g => (g.map Delivery.batsman_runs).sum))).take 10

/-- The fixed bowler-credited dismissal vocabulary of `analysis_top_bowlers`. -/
def legal_dismissals : List String :=
  ["caught", "bowled", "lbw", "stumped", "caught and bowled", "hit wicket"]

/-- `deliveries[deliveries['dismissal_kind'].isin(legal_dismissals)]`
(pandas `isin` is false on null). -/
def wickets (deliveries : List Delivery) : List Delivery :=
  deliveries.filter (fun d =>
    match d.dismissal_kind with
    | some k => legal_dismissals.contains k
    | none => false)

/-- `analysis_top_bowlers`:
`wickets.groupby('bowler')['player_dismissed'].count().sort_values(ascending=False).head(10)`
(pandas `count` counts the non-null entries of the column). -/
def analysis_top_bowlers (deliveries : List Delivery) : List (String × Nat) :=
  (sortBy leCount
    (groupbyAgg (wickets deliveries) Delivery.bowler
      (fun g => g.countP (fun d => decide (d.player_dismissed ≠ none))))).take 10

/-- The helper column `toss['toss_win_match'] = toss['toss_winner'] == toss['winner']`
(a null winner compares unequal to any team). -/
def toss_win_match (m : MatchRow) : Bool := decide (some m.toss_winner = m.winner)

/-- `analysis_toss_impact`, percentage part: on `toss = matches.copy()`
with the boolean helper column,
`toss.groupby('toss_decision')['toss_win_match'].mean() * 100`
(the mean of a boolean column is the count of trues over the group size). -/
def analysis_toss_impact_pct (ms : List MatchRow) : List (String × ℚ) :=
  let toss : List (MatchRow × Bool) := ms.map (fun m => (m, toss_win_match m))
  (groupbyAgg toss (fun q => q.1.toss_decision) (fun _ => 0)).map
    (fun p =>
      let g := toss.filter (fun q => decide (q.1.toss_decision = p.1))
      (p.1, 100 * ((g.countP Prod.snd : ℚ) / (g.length : ℚ))))

/-- `analysis_toss_impact`, count part: `matches['toss_decision'].value_counts()`. -/
def analysis_toss_counts (ms : List MatchRow) : List (String × Nat) :=
  valueCounts (ms.map MatchRow.toss_decision)

/-- `analysis_player_of_match`: `matches['player_of_match'].value_counts().head(10)`. -/
def analysis_player_of_match (ms : List MatchRow) : List (String × Nat) :=
  (valueCounts (ms.map MatchRow.player_of_match)).take 10

/-- `analysis_runs_distribution`:
`deliveries['batsman_runs'].value_counts().sort_index()`. -/
def analysis_runs_distribution (deliveries : List Delivery) : List (Nat × Nat) :=
  sortBy leKey (valueCounts (deliveries.map Delivery.batsman_runs))

/-! ### `generate_sample_data`: the synthetic fallback generator -/

/-- The fixed team pool of `generate_sample_data`. -/
def teams : List String :=
  ["Mumbai Indians", "Chennai Super Kings", "Royal Challengers Bangalore",
   "Kolkata Knight Riders", "Delhi Capitals", "Sunrisers Hyderabad",
   "Rajasthan Royals", "Punjab Kings"]

/-- `seasons = list(range(2008, 2023))`. -/
def seasonsList : List Nat := List.range' 2008 15

/-- The fixed city pool. -/
def cities : List String :=
  ["Mumbai", "Chennai", "Bangalore", "Kolkata", "Delhi", "Hyderabad"]

/-- The fixed player-of-match pool of the matches table. -/
def pomPlayers : List String :=
  ["V Kohli", "MS Dhoni", "RG Sharma", "AB de Villiers",
   "SK Raina", "KA Pollard", "SR Watson", "DA Warner"]

/-- The fixed player pool of the deliveries table. -/
def players : List String :=
  ["V Kohli", "MS Dhoni", "RG Sharma", "AB de Villiers", "SK Raina",
   "KA Pollard", "SR Watson", "DA Warner", "RR Pant", "HH Pandya"]

/-- `np.random.choice(opts, n)` at stream position `i`: a pick from `opts`
determined by the seeded stream (weighted variants are modelled as
stream-determined picks from the same support). -/
def choiceAt {α : Type} (stream : Nat → Nat) (opts : List α) (dflt : α)
    (i : Nat) : α :=
  opts.getD (stream i % opts.length) dflt

/-- Row `i` (0-based) of the synthetic matches table: each random column
occupies its own block of 800 stream positions, in source order. -/
def matchRowAt (stream : Nat → Nat) (i : Nat) : MatchRow :=
  { id := i + 1
    season := choiceAt stream seasonsList 0 i
    city := choiceAt stream cities "" (800 + i)
    team1 := choiceAt stream teams "" (1600 + i)
    team2 := choiceAt stream teams "" (2400 + i)
    winner := some (choiceAt stream teams "" (3200 + i))
    win_by_runs := stream (4000 + i) % 100
    win_by_wickets := stream (4800 + i) % 10
    player_of_match := choiceAt stream pomPlayers "" (5600 + i)
    toss_winner := choiceAt stream teams "" (6400 + i)
    toss_decision := choiceAt stream ["bat", "field"] "" (7200 + i) }

/-- Row `i` (0-based) of the synthetic deliveries table: each random column
occupies its own block of 5000 stream positions after the matches blocks. -/
def deliveryAt (stream : Nat → Nat) (i : Nat) : Delivery :=
  { match_id := 1 + stream (8000 + i) % 800
    inning := choiceAt stream [1, 2] 1 (13000 + i)
    batting_team := choiceAt stream teams "" (18000 + i)
    bowling_team := choiceAt stream teams "" (23000 + i)
    batsman := choiceAt stream players "" (28000 + i)
    bowler := choiceAt stream players "" (33000 + i)
    batsman_runs := choiceAt stream [0, 1, 2, 3, 4, 6] 0 (38000 + i)
    extra_runs := choiceAt stream [0, 1, 2] 0 (43000 + i)
    total_runs := choiceAt stream [0, 1, 2, 3, 4, 6] 0 (48000 + i)
    player_dismissed :=
      choiceAt stream (players.map some ++ [none, none, none, none, none])
        none (53000 + i)
    dismissal_kind :=
      choiceAt stream
        [some "caught", some "bowled", some "lbw", some "run out", none]
        none (58000 + i) }

/-- `generate_sample_data`: `np.random.seed(42)` replaces the incoming
global RNG state `globalState` by the stream seeded with 42, then the two
tables are drawn with `n = 800` match rows and `n_del = 5000` delivery
rows. -/
def generate_sample_data (mtStream : Nat → Nat → Nat) (_globalState : Nat → Nat) :
    List MatchRow × List Delivery :=
  let stream := mtStream 42
  ((List.range 800).map (matchRowAt stream),
   (List.range 5000).map (deliveryAt stream))

/-! ### `load_data`: the data provider -/

/-- Outcome of a `pd.read_csv` call: Python `FileNotFoundError` or any
other exception (malformed file, parse error, ...). -/
inductive ReadError where
  | fileNotFound
  | malformed
  deriving Repr, DecidableEq

/-- `load_data`: try to read both files; a `FileNotFoundError` from either
read is caught and answered with the synthetic fallback; any other
exception propagates. -/
def load_data (mtStream : Nat → Nat → Nat) (globalState : Nat → Nat)
    (readMatches : Except ReadError (List MatchRow))
    (readDeliveries : Except ReadError (List Delivery)) :
    Except ReadError (List MatchRow × List Delivery) :=
  match readMatches with
  | .error .fileNotFound => .ok (generate_sample_data mtStream globalState)
  | .error e => .error e
  | .ok ms =>
    match readDeliveries with
    | .error .fileNotFound => .ok (generate_sample_data mtStream globalState)
    | .error e => .error e
    | .ok ds => .ok (ms, ds)

/-! ### `print_summary`: the summary reporter -/

/-- `series.min()` over a numeric column (`None` models pandas NaN on an
empty series). -/
def seriesMin : List Nat → Option Nat
  | [] => none
  | x :: xs =>
    some (match seriesMin xs with
          | none => x
          | some m => Nat.min x m)

/-- `series.max()` over a numeric column. -/
def seriesMax : List Nat → Option Nat
  | [] => none
  | x :: xs =>
    some (match seriesMax xs with
          | none => x
          | some m => Nat.max x m)

/-- The values printed by `print_summary`. -/
structure Summary where
  totalMatches : Nat
  seasonMin : Option Nat
  seasonMax : Option Nat
  totalRuns : Nat
  totalBoundaries : Nat
  mostSuccessfulTeam : Option String
  topRunScorer : Option String
  mostPOM : Option String
  deriving Repr, DecidableEq

/-- `print_summary`: headline statistics recomputed from the loaded tables. -/
def print_summary (ms : List MatchRow) (deliveries : List Delivery) : Summary :=
  { totalMatches := ms.length
    seasonMin := seriesMin (ms.map MatchRow.season)
    seasonMax := seriesMax (ms.map MatchRow.season)
    totalRuns := (deliveries.map Delivery.total_runs).sum
    totalBoundaries :=
      (deliveries.filter (fun d => [4, 6].contains d.batsman_runs)).length
    mostSuccessfulTeam :=
      ((valueCounts (dropNone (ms.map MatchRow.winner))).head?).map Prod.fst
    topRunScorer :=
      seriesIdxmax (groupbyAgg deliveries Delivery.batsman
        (fun g => (g.map Delivery.batsman_runs).sum))
    mostPOM :=
      ((valueCounts (ms.map MatchRow.player_of_match)).head?).map Prod.fst }

/-! ### `main`: state-passing model of the orchestrator

Python passes the two DataFrames by reference into each routine, so a
routine that mutated its argument would change the tables later routines
and `print_summary` see.  Each routine is modelled as returning the
post-call state of the table it received; `analysis_toss_impact` is the
only routine that builds a derived frame at all, and it does so on
`matches.copy()`, so its post-state is its input. -/

def analysis_team_wins_state (ms : List MatchRow) :
    List MatchRow × List (String × Nat) :=
  (ms, analysis_team_wins ms)

def analysis_season_matches_state (ms : List MatchRow) :
    List MatchRow × List (Nat × Nat) :=
  (ms, analysis_season_matches ms)

def analysis_top_batsmen_state (deliveries : List Delivery) :
    List Delivery × List (String × Nat) :=
  (deliveries, analysis_top_batsmen deliveries)

def analysis_top_bowlers_state (deliveries : List Delivery) :
    List Delivery × List (String × Nat) :=
  (deliveries, analysis_top_bowlers deliveries)

/-- `analysis_toss_impact`: `toss = matches.copy()` gets the helper column
`toss_win_match`; the frame bound to `matches` is left untouched and is
the post-state. -/
def analysis_toss_impact_state (ms : List MatchRow) :
    List MatchRow × (List (String × ℚ) × List (String × Nat)) :=
  (ms, (analysis_toss_impact_pct ms, analysis_toss_counts ms))

def analysis_player_of_match_state (ms : List MatchRow) :
    List MatchRow × List (String × Nat) :=
  (ms, analysis_player_of_match ms)

def analysis_runs_distribution_state (deliveries : List Delivery) :
    List Delivery × List (Nat × Nat) :=
  (deliveries, analysis_runs_distribution deliveries)

/-- The tables that reach `print_summary` in `main` after the seven
analysis calls, threading each table through the routines in call order. -/
def main_tables (ms : List MatchRow) (ds : List Delivery) :
    List MatchRow × List Delivery :=
  let ms1 := (analysis_team_wins_state ms).1
  let ms2 := (analysis_season_matches_state ms1).1
  let ds1 := (analysis_top_batsmen_state ds).1
  let ds2 := (analysis_top_bowlers_state ds1).1
  let ms3 := (analysis_toss_impact_state ms2).1
  let ms4 := (analysis_player_of_match_state ms3).1
  let ds3 := (analysis_runs_distribution_state ds2).1
  (ms4, ds3)

/-- A stream under which the seeded draws give row 0 of the synthetic
matches table `team1 = team2 = "Mumbai Indians"` but
`winner = "Royal Challengers Bangalore"` (positions 3200–3999 are the
winner column draws). -/
def c1Stream : Nat → Nat → Nat :=
  fun _ k => if 3200 ≤ k ∧ k < 4000 then 2 else 0

/-- Row 0 of the synthetic matches table under `c1Stream`. -/
def c1Row : MatchRow :=
  { id := 1, season := 2008, city := "Mumbai", team1 := "Mumbai Indians",
    team2 := "Mumbai Indians", winner := some "Royal Challengers Bangalore",
    win_by_runs := 0, win_by_wickets := 0, player_of_match := "V Kohli",
    toss_winner := "Mumbai Indians", toss_decision := "bat" }

/-- A 3-row demo matches table in which team "A" wins twice and team "B"
wins once. -/
def c8Row (w : String) : MatchRow :=
  { id := 1, season := 2008, city := "Mumbai", team1 := "A", team2 := "B",
    winner := some w, win_by_runs := 0, win_by_wickets := 0,
    player_of_match := "P", toss_winner := "A", toss_decision := "bat" }

/-- A single demo delivery: a caught dismissal credited to bowler "Y". -/
def c3Delivery : Delivery :=
  { match_id := 1, inning := 1, batting_team := "A", bowling_team := "B",
    batsman := "X", bowler := "Y", batsman_runs := 4, extra_runs := 0,
    total_runs := 4, player_dismissed := some "X",
    dismissal_kind := some "caught" }

/-- The other admissible output order of `sort_values(ascending=False)`:
pandas's default quicksort is documented unstable and implements a
descending sort as the reversed ascending argsort, so on a tied pair the
reversed tie order is what the implementation actually produces. -/
def sortValuesDescLast {K : Type} (l : List (K × Nat)) : List (K × Nat) :=
  (sortBy (fun a b => decide (a.2 ≤ b.2)) l).reverse

/-- Two deliveries giving batsmen "A" and "B" the same maximal run total. -/
def c10Deliveries : List Delivery :=
  [{ c3Delivery with batsman := "A", batsman_runs := 5, total_runs := 5 },
   { c3Delivery with batsman := "B", batsman_runs := 5, total_runs := 5 }]

/-- The per-batsman run totals of `c10Deliveries` (the grouped series that
both line 146 and line 281 of the source recompute). -/
def c10Grouped : List (String × Nat) :=
  groupbyAgg c10Deliveries Delivery.batsman
    (fun g => (g.map Delivery.batsman_runs).sum)

/-- A summary table sorted descending by its aggregate value. -/
def sortedDesc {K : Type} (l : List (K × Nat)) : Prop :=
  List.Chain' (fun a b => b.2 ≤ a.2) l

/-- A summary table sorted ascending by its key. -/
def sortedAscKey {K β : Type} [LinearOrder K] (l : List (K × β)) : Prop :=
  List.Chain' (fun a b => a.1 ≤ b.1) l

/-! ### Lemmas on the sorting and grouping primitives -/

theorem insertBy_perm {α : Type} (le : α → α → Bool) (x : α) (l : List α) :
    List.Perm (insertBy le x l) (x :: l) := by
  induction l with
  | nil => simp [insertBy]
  | cons y ys ih =>
    rw [insertBy]
    split
    · exact List.Perm.refl _
    · exact List.Perm.trans (List.Perm.cons y ih) (List.Perm.swap x y ys)

theorem sortBy_perm {α : Type} (le : α → α → Bool) (l : List α) :
    List.Perm (sortBy le l) l := by
  induction l with
  | nil => exact List.Perm.refl _
  | cons x xs ih =>
    exact List.Perm.trans (insertBy_perm le x (sortBy le xs)) (List.Perm.cons x ih)

theorem length_sortBy {α : Type} (le : α → α → Bool) (l : List α) :
    (sortBy le l).length = l.length :=
  (sortBy_perm le l).length_eq

theorem head?_insertBy {α : Type} (le : α → α → Bool) (x : α) (l : List α) :
    (insertBy le x l).head? = some x ∨ (insertBy le x l).head? = l.head? := by
  cases l with
  | nil => left; rfl
  | cons y ys =>
    rw [insertBy]
    split
    · left; rfl
    · right; rfl

theorem chain'_insertBy {α : Type} {le : α → α → Bool}
    (htot : ∀ a b, le a b = false → le b a = true) (x : α) {l : List α}
    (h : List.Chain' (fun a b => le a b = true) l) :
    List.Chain' (fun a b => le a b = true) (insertBy le x l) := by
  induction l with
  | nil => simp [insertBy]
  | cons y ys ih =>
    rw [insertBy]
    by_cases hxy : le x y = true
    · simp only [hxy, if_true]
      exact List.chain'_cons.2 ⟨hxy, h⟩
    · simp only [hxy, if_false]
      refine List.chain'_cons'.2 ⟨?_, ih h.tail⟩
      intro b hb
      rcases head?_insertBy le x ys with h1 | h1
      · rw [h1] at hb
        cases hb
        exact htot x y (Bool.not_eq_true _ ▸ hxy)
      · rw [h1] at hb
        exact (List.chain'_cons'.1 h).1 b hb

theorem chain'_sortBy {α : Type} {le : α → α → Bool}
    (htot : ∀ a b, le a b = false → le b a = true) (l : List α) :
    List.Chain' (fun a b => le a b = true) (sortBy le l) := by
  induction l with
  | nil => simp [sortBy]
  | cons x xs ih => exact chain'_insertBy htot x ih

theorem leCount_total {α : Type} :
    ∀ a b : α × Nat, leCount a b = false → leCount b a = true := by
  intro a b h
  simp only [leCount, decide_eq_false_iff_not, not_le] at h
  simp only [leCount, decide_eq_true_eq]
  omega

theorem leKey_total {α β : Type} [LinearOrder α] :
    ∀ a b : α × β, leKey a b = false → leKey b a = true := by
  intro a b h
  simp only [leKey, decide_eq_false_iff_not, not_le] at h
  simp only [leKey, decide_eq_true_eq]
  exact le_of_lt h

theorem sortedDesc_sortBy_leCount {K : Type} (l : List (K × Nat)) :
    sortedDesc (sortBy leCount l) :=
  (chain'_sortBy leCount_total l).imp
    (fun _ _ hab => by simpa [leCount] using hab)

theorem sortedAscKey_sortBy_leKey {K β : Type} [LinearOrder K]
    (l : List (K × β)) : sortedAscKey (sortBy leKey l) :=
  (chain'_sortBy leKey_total l).imp
    (fun _ _ hab => by simpa [leKey] using hab)

theorem mem_dedupFirst {α : Type} [DecidableEq α] {a : α} :
    ∀ {l : List α}, a ∈ dedupFirst l ↔ a ∈ l := by
  intro l
  induction l with
  | nil => simp [dedupFirst]
  | cons x xs ih =>
    rw [dedupFirst]
    simp only [List.mem_cons, List.mem_filter, ih, decide_eq_true_eq]
    constructor
    · rintro (rfl | ⟨h, _⟩)
      · exact Or.inl rfl
      · exact Or.inr h
    · rintro (rfl | h)
      · exact Or.inl rfl
      · by_cases hax : a = x
        · exact Or.inl hax
        · exact Or.inr ⟨h, hax⟩

theorem filter_swap {α : Type} (p q : α → Bool) (l : List α) :
    (l.filter p).filter q = (l.filter q).filter p := by
  rw [List.filter_filter, List.filter_filter]
  exact List.filter_congr (fun a _ => Bool.and_comm _ _)

theorem filter_idem {α : Type} (p : α → Bool) (l : List α) :
    (l.filter p).filter p = l.filter p := by
  rw [List.filter_filter]
  exact List.filter_congr (fun a _ => Bool.and_self _)

theorem dedupFirst_filter_comm {α : Type} [DecidableEq α] (x : α) :
    ∀ (l : List α),
      (dedupFirst l).filter (fun y => decide (y ≠ x)) =
        dedupFirst (l.filter (fun y => decide (y ≠ x))) := by
  intro l
  induction l with
  | nil => rfl
  | cons z zs ih =>
    rcases eq_or_ne z x with rfl | hzx
    · have h1 : dedupFirst (z :: zs) = z :: (dedupFirst zs).filter
          (fun y => decide (y ≠ z)) := rfl
      have h2 : (z :: zs).filter (fun y => decide (y ≠ z)) =
          zs.filter (fun y => decide (y ≠ z)) := by
        simp [List.filter_cons]
      rw [h1, h2, ← ih, List.filter_cons]
      simp only [ne_eq, not_true_eq_false, decide_eq_true_eq]
      rw [if_neg (by simp)]
      exact filter_idem _ _
    · have h1 : dedupFirst (z :: zs) = z :: (dedupFirst zs).filter
          (fun y => decide (y ≠ z)) := rfl
      have h2 : (z :: zs).filter (fun y => decide (y ≠ x)) =
          z :: zs.filter (fun y => decide (y ≠ x)) := by
        simp [List.filter_cons, hzx]
      rw [h1, h2, dedupFirst, ← ih, List.filter_cons]
      rw [if_pos (by simpa using hzx)]
      rw [filter_swap]

theorem count_add_filter_ne_length {α : Type} [DecidableEq α] (x : α)
    (xs : List α) :
    xs.count x + (xs.filter (fun y => decide (y ≠ x))).length = xs.length := by
  induction xs with
  | nil => simp
  | cons y ys ih =>
    rcases eq_or_ne y x with h | h
    · subst h
      have hfe : (y :: ys).filter (fun z => decide (z ≠ y)) =
          ys.filter (fun z => decide (z ≠ y)) := by
        simp [List.filter_cons]
      rw [hfe, List.count_cons_self, List.length_cons]
      omega
    · have hfe : (y :: ys).filter (fun z => decide (z ≠ x)) =
          y :: ys.filter (fun z => decide (z ≠ x)) := by
        simp [List.filter_cons, h]
      rw [hfe, List.count_cons_of_ne (Ne.symm h), List.length_cons,
        List.length_cons]
      omega

theorem sum_counts_dedupFirst_aux {α : Type} [DecidableEq α] :
    ∀ (n : Nat) (l : List α), l.length ≤ n →
      ((dedupFirst l).map (fun k => l.count k)).sum = l.length := by
  intro n
  induction n with
  | zero =>
    intro l hl
    have hnil : l = [] := List.length_eq_zero.1 (Nat.le_zero.1 hl)
    subst hnil
    simp [dedupFirst]
  | succ n ih =>
    intro l hl
    cases l with
    | nil => simp [dedupFirst]
    | cons x xs =>
      rw [dedupFirst, dedupFirst_filter_comm x xs]
      simp only [List.map_cons, List.sum_cons]
      have hcongr :
          (dedupFirst (xs.filter (fun y => decide (y ≠ x)))).map
              (fun k => (x :: xs).count k) =
          (dedupFirst (xs.filter (fun y => decide (y ≠ x)))).map
              (fun k => (xs.filter (fun y => decide (y ≠ x))).count k) := by
        apply List.map_congr_left
        intro k hk
        have hkx : k ≠ x :=
          by simpa using (List.mem_filter.1 (mem_dedupFirst.1 hk)).2
        rw [List.count_cons_of_ne hkx, List.count_filter (by simpa using hkx)]
      have hlen : (xs.filter (fun y => decide (y ≠ x))).length ≤ n := by
        have h1 := List.length_filter_le (fun y => decide (y ≠ x)) xs
        have h2 : xs.length ≤ n := by
          simpa [List.length_cons, Nat.succ_le_succ_iff] using hl
        omega
      rw [hcongr, ih _ hlen, List.count_cons_self, List.length_cons]
      have := count_add_filter_ne_length x xs
      omega

theorem sum_counts_dedupFirst {α : Type} [DecidableEq α] (l : List α) :
    ((dedupFirst l).map (fun k => l.count k)).sum = l.length :=
  sum_counts_dedupFirst_aux l.length l (Nat.le_refl _)

theorem natMax_eq_left {a b : Nat} (h : b ≤ a) : Nat.max a b = a :=
  Nat.max_eq_left h

theorem natMax_eq_right {a b : Nat} (h : a ≤ b) : Nat.max a b = b :=
  Nat.max_eq_right h

theorem natMin_eq_left {a b : Nat} (h : a ≤ b) : Nat.min a b = a :=
  Nat.min_eq_left h

theorem natMin_eq_right {a b : Nat} (h : b ≤ a) : Nat.min a b = b :=
  Nat.min_eq_right h

theorem maxVal_cons {K : Type} (x : K × Nat) (l : List (K × Nat)) :
    maxVal (x :: l) = Nat.max x.2 (maxVal l) := rfl

theorem le_maxVal {K : Type} {p : K × Nat} :
    ∀ {l : List (K × Nat)}, p ∈ l → p.2 ≤ maxVal l := by
  intro l
  induction l with
  | nil => intro h; cases h
  | cons x xs ih =>
    intro h
    rw [maxVal_cons]
    rcases List.mem_cons.1 h with rfl | h
    · exact Nat.le_max_left _ _
    · exact Nat.le_trans (ih h) (Nat.le_max_right _ _)

theorem maxVal_achieved {K : Type} :
    ∀ {l : List (K × Nat)}, l ≠ [] → ∃ p ∈ l, p.2 = maxVal l := by
  intro l
  induction l with
  | nil => intro h; exact absurd rfl h
  | cons x xs ih =>
    intro _
    rcases eq_or_ne xs [] with rfl | hxs
    · exact ⟨x, List.mem_cons_self x [], by simp [maxVal]⟩
    · rcases ih hxs with ⟨p, hp, hpv⟩
      rcases Nat.le_total (maxVal xs) x.2 with hle | hle
      · exact ⟨x, List.mem_cons_self x xs,
          by rw [maxVal_cons, natMax_eq_left hle]⟩
      · exact ⟨p, List.mem_cons_of_mem x hp,
          by rw [maxVal_cons, natMax_eq_right hle, hpv]⟩

theorem head?_sortBy_leCount {K : Type} :
    ∀ (l : List (K × Nat)),
      (sortBy leCount l).head? = l.find? (fun p => decide (maxVal l ≤ p.2)) := by
  intro l
  induction l with
  | nil => rfl
  | cons x xs ih =>
    rw [sortBy]
    cases hxs : sortBy leCount xs with
    | nil =>
      have hlen : xs.length = 0 := by
        have h0 := length_sortBy leCount xs
        rw [hxs] at h0
        simpa using h0.symm
      have hxe : xs = [] := List.length_eq_zero.1 hlen
      subst hxe
      simp [sortBy, insertBy, maxVal]
    | cons h t =>
      have hmem : h ∈ xs := by
        refine (sortBy_perm leCount xs).mem_iff.1 ?_
        rw [hxs]
        exact List.mem_cons_self h t
      have hix : xs.find? (fun p => decide (maxVal xs ≤ p.2)) = some h := by
        rw [← ih, hxs]
        rfl
      have hub : maxVal xs ≤ h.2 := by
        have := List.find?_some hix
        simpa using this
      have hh2 : h.2 = maxVal xs := Nat.le_antisymm (le_maxVal hmem) hub
      rw [insertBy]
      by_cases hc : leCount x h = true
      · simp only [hc, if_true]
        have hhx : h.2 ≤ x.2 := by simpa [leCount] using hc
        have hmx : maxVal (x :: xs) = x.2 := by
          rw [maxVal_cons]
          exact natMax_eq_left (by omega)
        rw [hmx, List.find?_cons_of_pos _ (by simp)]
        rfl
      · simp only [hc, if_false]
        have hhx : x.2 < h.2 := by
          have := Bool.not_eq_true (leCount x h) ▸ hc
          simp only [leCount, decide_eq_true_eq] at hc
          omega
        have hmx : maxVal (x :: xs) = maxVal xs := by
          rw [maxVal_cons]
          exact natMax_eq_right (by omega)
        rw [hmx, List.find?_cons_of_neg _ (by simp; omega), hix]
        rfl

theorem sum_valueCounts {α : Type} [DecidableEq α] (l : List α) :
    ((valueCounts l).map Prod.snd).sum = l.length := by
  unfold valueCounts
  have hperm :=
    ((sortBy_perm leCount
      ((dedupFirst l).map (fun k => (k, l.count k)))).map Prod.snd).sum_eq
  rw [hperm, List.map_map]
  simpa using sum_counts_dedupFirst l

theorem mem_keys_valueCounts {α : Type} [DecidableEq α] {l : List α}
    {p : α × Nat} (h : p ∈ valueCounts l) : p.1 ∈ l := by
  unfold valueCounts at h
  have h2 := (sortBy_perm leCount _).mem_iff.1 h
  rcases List.mem_map.1 h2 with ⟨k, hk, rfl⟩
  exact mem_dedupFirst.1 hk

theorem mem_groupbyAgg {R K : Type} [DecidableEq K] [LinearOrder K]
    {rows : List R} {key : R → K} {agg : List R → Nat} {p : K × Nat}
    (h : p ∈ groupbyAgg rows key agg) :
    p.1 ∈ rows.map key ∧
    p.2 = agg (rows.filter (fun r => decide (key r = p.1))) := by
  unfold groupbyAgg at h
  rcases List.mem_map.1 h with ⟨q, hq, rfl⟩
  refine ⟨?_, rfl⟩
  have hq2 := (sortBy_perm leKey _).mem_iff.1 hq
  rcases List.mem_map.1 hq2 with ⟨k, hk, rfl⟩
  exact mem_dedupFirst.1 hk

theorem groupbyAgg_ne_nil {R K : Type} [DecidableEq K] [LinearOrder K]
    {rows : List R} (h : rows ≠ []) (key : R → K) (agg : List R → Nat) :
    groupbyAgg rows key agg ≠ [] := by
  intro hcon
  have hlen := congrArg List.length hcon
  unfold groupbyAgg at hlen
  rw [List.length_map, length_sortBy, List.length_map] at hlen
  cases hr : rows with
  | nil => exact h hr
  | cons r rs =>
    rw [hr] at hlen
    simp [dedupFirst] at hlen

theorem seriesMin_spec :
    ∀ (l : List Nat), l ≠ [] →
      ∃ m, seriesMin l = some m ∧ m ∈ l ∧ ∀ s ∈ l, m ≤ s := by
  intro l
  induction l with
  | nil => intro h; exact absurd rfl h
  | cons x xs ih =>
    intro _
    rcases eq_or_ne xs [] with rfl | hxs
    · refine ⟨x, by simp [seriesMin], List.mem_cons_self x [], ?_⟩
      intro s hs
      rcases List.mem_cons.1 hs with rfl | hs
      · exact Nat.le_refl _
      · cases hs
    · rcases ih hxs with ⟨m, hm, hmem, hle⟩
      refine ⟨Nat.min x m, by rw [seriesMin, hm], ?_, ?_⟩
      · rcases Nat.le_total x m with h | h
        · rw [natMin_eq_left h]
          exact List.mem_cons_self x xs
        · rw [natMin_eq_right h]
          exact List.mem_cons_of_mem x hmem
      · intro s hs
        rcases List.mem_cons.1 hs with rfl | hs
        · exact Nat.min_le_left _ _
        · exact Nat.le_trans (Nat.min_le_right _ _) (hle s hs)

theorem seriesMax_spec :
    ∀ (l : List Nat), l ≠ [] →
      ∃ m, seriesMax l = some m ∧ m ∈ l ∧ ∀ s ∈ l, s ≤ m := by
  intro l
  induction l with
  | nil => intro h; exact absurd rfl h
  | cons x xs ih =>
    intro _
    rcases eq_or_ne xs [] with rfl | hxs
    · refine ⟨x, by simp [seriesMax], List.mem_cons_self x [], ?_⟩
      intro s hs
      rcases List.mem_cons.1 hs with rfl | hs
      · exact Nat.le_refl _
      · cases hs
    · rcases ih hxs with ⟨m, hm, hmem, hle⟩
      refine ⟨Nat.max x m, by rw [seriesMax, hm], ?_, ?_⟩
      · rcases Nat.le_total x m with h | h
        · rw [natMax_eq_right h]
          exact List.mem_cons_of_mem x hmem
        · rw [natMax_eq_left h]
          exact List.mem_cons_self x xs
      · intro s hs
        rcases List.mem_cons.1 hs with rfl | hs
        · exact Nat.le_max_left _ _
        · exact Nat.le_trans (hle s hs) (Nat.le_max_right _ _)

theorem choiceAt_mem {α : Type} (stream : Nat → Nat) {opts : List α}
    (h : opts ≠ []) (dflt : α) (i : Nat) : choiceAt stream opts dflt i ∈ opts := by
  unfold choiceAt
  have hlt : stream i % opts.length < opts.length := by
    refine Nat.mod_lt _ ?_
    cases opts with
    | nil => exact absurd rfl h
    | cons o os => simp
  rw [List.getD_eq_getElem _ _ hlt]
  exact List.getElem_mem hlt

set_option maxRecDepth 20000 in
/-- Claim C1, counterexample: the Data Provider (here hitting the missing-file
fallback) can return a match record whose non-null `winner` equals neither
its `team1` nor its `team2`: `generate_sample_data` draws the winner column
independently of the team columns. -/
theorem claim_C1_counterexample :
    load_data c1Stream (fun _ => 0) (Except.error ReadError.fileNotFound)
        (Except.error ReadError.fileNotFound) =
      Except.ok (generate_sample_data c1Stream (fun _ => 0)) ∧
    (generate_sample_data c1Stream (fun _ => 0)).1.head? = some c1Row ∧
    c1Row.winner ≠ some c1Row.team1 ∧ c1Row.winner ≠ some c1Row.team2 := by
  refine ⟨rfl, ?_, by decide, by decide⟩
  rfl

/-- Claim C1 (amended): every match record produced by the synthetic
fallback draws `winner`, `team1` and `team2` from the same fixed
eight-team pool, but the draws are independent, so a non-null `winner`
need not equal that record's `team1` or `team2`; file-read records are
returned without any validation. -/
theorem claim_C1_amended (mtStream : Nat → Nat → Nat) (g : Nat → Nat) :
    ((generate_sample_data mtStream g).1.all
      (fun m => (teams.map some).contains m.winner &&
        (teams.contains m.team1 && teams.contains m.team2))) = true := by
  rw [List.all_eq_true]
  intro m hm
  simp only [generate_sample_data] at hm
  rcases List.mem_map.1 hm with ⟨i, _, rfl⟩
  have hteams : teams ≠ [] := by simp [teams]
  simp only [matchRowAt, Bool.and_eq_true]
  refine ⟨?_, ?_, ?_⟩
  · exact List.elem_iff.2
      (List.mem_map_of_mem some (choiceAt_mem _ hteams _ _))
  · exact List.elem_iff.2 (choiceAt_mem _ hteams _ _)
  · exact List.elem_iff.2 (choiceAt_mem _ hteams _ _)

/-- Claim C5: with the fixed seed 42 the fallback generator is a function
of the seeded stream only — the incoming global RNG state is irrelevant,
so two runs produce identical tables — and the tables always have exactly
800 match rows and 5000 delivery rows. -/
theorem claim_C5 (mtStream : Nat → Nat → Nat) (g1 g2 : Nat → Nat) :
    (generate_sample_data mtStream g1).1.length = 800 ∧
    (generate_sample_data mtStream g1).2.length = 5000 ∧
    generate_sample_data mtStream g1 = generate_sample_data mtStream g2 := by
  refine ⟨?_, ?_, rfl⟩ <;> simp [generate_sample_data]

/-- Claim C6: `load_data` recovers exactly from a missing file — a
`FileNotFoundError` on either read yields the synthetic fallback tables —
while any other read error propagates, and two successful reads are
returned unchanged. -/
theorem claim_C6 (mtStream : Nat → Nat → Nat) (g : Nat → Nat)
    (ms : List MatchRow) (ds : List Delivery)
    (rd : Except ReadError (List Delivery)) :
    load_data mtStream g (Except.error ReadError.fileNotFound) rd =
      Except.ok (generate_sample_data mtStream g) ∧
    load_data mtStream g (Except.ok ms) (Except.error ReadError.fileNotFound) =
      Except.ok (generate_sample_data mtStream g) ∧
    load_data mtStream g (Except.error ReadError.malformed) rd =
      Except.error ReadError.malformed ∧
    load_data mtStream g (Except.ok ms) (Except.error ReadError.malformed) =
      Except.error ReadError.malformed ∧
    load_data mtStream g (Except.ok ms) (Except.ok ds) = Except.ok (ms, ds) :=
  ⟨rfl, rfl, rfl, rfl, rfl⟩

/-- Claim C8: on the 3-row table where "A" wins twice and "B" once, the
team-wins aggregation yields exactly two entries, "A" at 2 ranked first,
then "B" at 1. -/
theorem claim_C8 :
    analysis_team_wins [c8Row "A", c8Row "A", c8Row "B"] =
      [("A", 2), ("B", 1)] := by
  decide

/-- Claim C9: threading the two tables through all seven analysis routines
leaves them unchanged — `print_summary` receives exactly the tables the
Data Provider returned — and in particular `analysis_toss_impact` leaves
its input table untouched (its helper column lives on `matches.copy()`). -/
theorem claim_C9 (ms : List MatchRow) (ds : List Delivery) :
    main_tables ms ds = (ms, ds) ∧ (analysis_toss_impact_state ms).1 = ms :=
  ⟨rfl, rfl⟩

theorem length_take_le {β : Type} (n : Nat) (l : List β) :
    (l.take n).length ≤ n := by
  simp [List.length_take]

/-- Claim C2: each capped aggregation returns at most its cap of rows (8
for team wins; 10 for top batsmen, top bowlers and player-of-match) and is
sorted descending by aggregate value; the season match counts and the
runs-per-ball distribution are sorted ascending by key. -/
theorem claim_C2 (ms : List MatchRow) (ds : List Delivery) :
    (analysis_team_wins ms).length ≤ 8 ∧ sortedDesc (analysis_team_wins ms) ∧
    (analysis_top_batsmen ds).length ≤ 10 ∧
    sortedDesc (analysis_top_batsmen ds) ∧
    (analysis_top_bowlers ds).length ≤ 10 ∧
    sortedDesc (analysis_top_bowlers ds) ∧
    (analysis_player_of_match ms).length ≤ 10 ∧
    sortedDesc (analysis_player_of_match ms) ∧
    sortedAscKey (analysis_season_matches ms) ∧
    sortedAscKey (analysis_runs_distribution ds) := by
  refine ⟨?_, ?_, ?_, ?_, ?_, ?_, ?_, ?_, ?_, ?_⟩
  · exact length_take_le 8 _
  · exact List.Chain'.take (sortedDesc_sortBy_leCount _) 8
  · exact length_take_le 10 _
  · exact List.Chain'.take (sortedDesc_sortBy_leCount _) 10
  · exact length_take_le 10 _
  · exact List.Chain'.take (sortedDesc_sortBy_leCount _) 10
  · exact length_take_le 10 _
  · exact List.Chain'.take (sortedDesc_sortBy_leCount _) 10
  · exact (List.chain'_map _).2 (sortedAscKey_sortBy_leKey _)
  · exact sortedAscKey_sortBy_leKey _

/-- Claim C3: an entry of the top-bowlers table counts exactly the
delivery rows with a non-null dismissed player, that bowler, and a
dismissal kind in the fixed bowler-credited vocabulary; no row of the
filtered `wickets` frame carries a "run out" dismissal. -/
theorem claim_C3 (ds : List Delivery) (b : String) (cnt : Nat)
    (h : (b, cnt) ∈ analysis_top_bowlers ds) :
    cnt = ds.countP (fun d =>
        (decide (d.player_dismissed ≠ none) && decide (d.bowler = b)) &&
        (match d.dismissal_kind with
         | some k => legal_dismissals.contains k
         | none => false)) ∧
    (wickets ds).countP
      (fun d => decide (d.dismissal_kind = some "run out")) = 0 := by
  constructor
  · have h1 : (b, cnt) ∈ sortBy leCount
        (groupbyAgg (wickets ds) Delivery.bowler
          (fun g => g.countP (fun d => decide (d.player_dismissed ≠ none)))) :=
      List.take_subset 10 _ h
    have h2 := (sortBy_perm leCount _).mem_iff.1 h1
    have h3 : cnt = ((wickets ds).filter
        (fun r => decide (r.bowler = b))).countP
        (fun d => decide (d.player_dismissed ≠ none)) := (mem_groupbyAgg h2).2
    rw [h3, List.countP_filter]
    unfold wickets
    rw [List.countP_filter]
  · rw [List.countP_eq_zero]
    intro d hd
    have hw := (List.mem_filter.1 hd).2
    intro hk
    have hkind : d.dismissal_kind = some "run out" := by simpa using hk
    rw [hkind] at hw
    exact absurd hw (by decide)

/-- Claim C3, witness: on a one-delivery table with a caught dismissal,
bowler "Y" is credited with exactly the one matching row, and the
"run out" count of the filtered frame is zero. -/
theorem claim_C3_witness :
    (("Y", 1) ∈ analysis_top_bowlers [c3Delivery]) ∧
    (1 = [c3Delivery].countP (fun d =>
        (decide (d.player_dismissed ≠ none) && decide (d.bowler = "Y")) &&
        (match d.dismissal_kind with
         | some k => legal_dismissals.contains k
         | none => false)) ∧
    (wickets [c3Delivery]).countP
      (fun d => decide (d.dismissal_kind = some "run out")) = 0) :=
  ⟨by decide, claim_C3 [c3Delivery] "Y" 1 (by decide)⟩

/-- Claim C4: when every toss decision is "bat" or "field", each
toss-impact percentage lies in [0, 100], every raw toss-decision count is
keyed by "bat" or "field", and the raw counts sum to the number of match
rows. -/
theorem claim_C4 (ms : List MatchRow)
    (h : ∀ m ∈ ms, m.toss_decision = "bat" ∨ m.toss_decision = "field") :
    (∀ q ∈ analysis_toss_impact_pct ms, 0 ≤ q.2 ∧ q.2 ≤ 100) ∧
    (∀ q ∈ analysis_toss_counts ms, q.1 = "bat" ∨ q.1 = "field") ∧
    ((analysis_toss_counts ms).map Prod.snd).sum = ms.length := by
  refine ⟨?_, ?_, ?_⟩
  · intro q hq
    simp only [analysis_toss_impact_pct] at hq
    rcases List.mem_map.1 hq with ⟨p, _, rfl⟩
    set g := (ms.map (fun m => (m, toss_win_match m))).filter
      (fun q => decide (q.1.toss_decision = p.1)) with hg
    have hle1 : (g.countP Prod.snd : ℚ) / (g.length : ℚ) ≤ 1 := by
      rcases Nat.eq_zero_or_pos g.length with h0 | h0
      · rw [h0]
        simp
      · rw [div_le_one (by exact_mod_cast h0)]
        exact_mod_cast List.countP_le_length _
    constructor
    · positivity
    · calc 100 * ((g.countP Prod.snd : ℚ) / (g.length : ℚ)) ≤ 100 * 1 := by
            exact mul_le_mul_of_nonneg_left hle1 (by norm_num)
        _ = 100 := by norm_num
  · intro q hq
    have hk := mem_keys_valueCounts hq
    rcases List.mem_map.1 hk with ⟨m, hm, he⟩
    rw [← he]
    exact h m hm
  · show ((valueCounts (ms.map MatchRow.toss_decision)).map Prod.snd).sum = _
    rw [sum_valueCounts, List.length_map]

/-- Claim C4, witness: on a one-row table with toss decision "bat", the
percentage is in range and the single count sums to the table length. -/
theorem claim_C4_witness :
    (∀ q ∈ analysis_toss_impact_pct [c8Row "A"], 0 ≤ q.2 ∧ q.2 ≤ 100) ∧
    (∀ q ∈ analysis_toss_counts [c8Row "A"],
      q.1 = "bat" ∨ q.1 = "field") ∧
    ((analysis_toss_counts [c8Row "A"]).map Prod.snd).sum =
      [c8Row "A"].length :=
  claim_C4 [c8Row "A"] (by decide)

theorem contains46_eq {n : Nat} :
    ([4, 6].contains n) = decide (n = 4 ∨ n = 6) := by
  rcases eq_or_ne n 4 with rfl | h4
  · decide
  · rcases eq_or_ne n 6 with rfl | h6
    · decide
    · simp [List.contains, List.elem_cons, h4, h6]

/-- Claim C7: the summary reporter's season range is the true min and max
of the season column, its total-runs figure is the sum of the total-runs
column, and its boundary count is the number of deliveries whose
runs-off-bat is 4 or 6. -/
theorem claim_C7 (ms : List MatchRow) (ds : List Delivery) (h : ms ≠ []) :
    (∃ lo, (print_summary ms ds).seasonMin = some lo ∧
      lo ∈ ms.map MatchRow.season ∧ ∀ s ∈ ms.map MatchRow.season, lo ≤ s) ∧
    (∃ hi, (print_summary ms ds).seasonMax = some hi ∧
      hi ∈ ms.map MatchRow.season ∧ ∀ s ∈ ms.map MatchRow.season, s ≤ hi) ∧
    (print_summary ms ds).totalRuns = (ds.map Delivery.total_runs).sum ∧
    (print_summary ms ds).totalBoundaries =
      ds.countP (fun d => decide (d.batsman_runs = 4 ∨ d.batsman_runs = 6)) := by
  have hmne : ms.map MatchRow.season ≠ [] := by
    cases ms with
    | nil => exact absurd rfl h
    | cons a l => simp
  refine ⟨seriesMin_spec _ hmne, seriesMax_spec _ hmne, rfl, ?_⟩
  show (ds.filter (fun d => [4, 6].contains d.batsman_runs)).length = _
  rw [List.countP_eq_length_filter]
  congr 1
  apply List.filter_congr
  intro d _
  exact contains46_eq

/-- Claim C7, witness: on a one-row matches table and one delivery the
reporter's season range, total runs and boundary count are as specified. -/
theorem claim_C7_witness :
    (∃ lo, (print_summary [c8Row "A"] [c3Delivery]).seasonMin = some lo ∧
      lo ∈ [c8Row "A"].map MatchRow.season ∧
      ∀ s ∈ [c8Row "A"].map MatchRow.season, lo ≤ s) ∧
    (∃ hi, (print_summary [c8Row "A"] [c3Delivery]).seasonMax = some hi ∧
      hi ∈ [c8Row "A"].map MatchRow.season ∧
      ∀ s ∈ [c8Row "A"].map MatchRow.season, s ≤ hi) ∧
    (print_summary [c8Row "A"] [c3Delivery]).totalRuns =
      ([c3Delivery].map Delivery.total_runs).sum ∧
    (print_summary [c8Row "A"] [c3Delivery]).totalBoundaries =
      [c3Delivery].countP
        (fun d => decide (d.batsman_runs = 4 ∨ d.batsman_runs = 6)) :=
  claim_C7 [c8Row "A"] [c3Delivery] (by decide)

theorem valueCounts_ne_nil {α : Type} [DecidableEq α] {l : List α}
    (h : l ≠ []) : valueCounts l ≠ [] := by
  intro hc
  have hlen := congrArg List.length hc
  unfold valueCounts at hlen
  rw [length_sortBy, List.length_map] at hlen
  cases l with
  | nil => exact h rfl
  | cons x xs => rw [dedupFirst] at hlen; simp at hlen

theorem sortValuesDescLast_perm {K : Type} (G : List (K × Nat)) :
    List.Perm (sortValuesDescLast G) G :=
  (List.reverse_perm _).trans (sortBy_perm _ G)

theorem sortedDesc_sortValuesDescLast {K : Type} (G : List (K × Nat)) :
    sortedDesc (sortValuesDescLast G) := by
  unfold sortValuesDescLast sortedDesc
  rw [List.chain'_reverse]
  exact (@chain'_sortBy (K × Nat) (fun a b => decide (a.2 ≤ b.2))
    (by intro a b hab; simp only [decide_eq_false_iff_not, not_le] at hab
        simp only [decide_eq_true_eq]; omega) G).imp
    (fun a b h => by simpa using h)

theorem chain'_desc_head_ub {K : Type} :
    ∀ (l : List (K × Nat)) (p0 : K × Nat),
      List.Chain' (fun a b : K × Nat => b.2 ≤ a.2) (p0 :: l) →
      ∀ q ∈ p0 :: l, q.2 ≤ p0.2 := by
  intro l
  induction l with
  | nil =>
    intro p0 _ q hq
    rcases List.mem_cons.1 hq with rfl | hq
    · exact Nat.le_refl _
    · cases hq
  | cons r t ih =>
    intro p0 hch q hq
    have hrp : r.2 ≤ p0.2 := (List.chain'_cons.1 hch).1
    rcases List.mem_cons.1 hq with rfl | hq
    · exact Nat.le_refl _
    · exact Nat.le_trans (ih r (List.chain'_cons.1 hch).2 q hq) hrp

theorem head?_sortValuesDescLast_of_uniqueMax {K : Type} (G : List (K × Nat))
    (hu : ∀ p ∈ G, ∀ q ∈ G, p.2 = maxVal G → q.2 = maxVal G → p = q) :
    (sortValuesDescLast G).head? =
      G.find? (fun p => decide (maxVal G ≤ p.2)) := by
  cases hG : sortValuesDescLast G with
  | nil =>
    have hlen : G.length = 0 := by
      have h0 := congrArg List.length hG
      unfold sortValuesDescLast at h0
      rw [List.length_reverse, length_sortBy] at h0
      simpa using h0
    have hGnil : G = [] := List.length_eq_zero.1 hlen
    subst hGnil
    rfl
  | cons p0 rest =>
    have hmemG : p0 ∈ G := (sortValuesDescLast_perm G).mem_iff.1
      (by rw [hG]; exact List.mem_cons_self _ _)
    have hdesc : List.Chain' (fun a b : K × Nat => b.2 ≤ a.2) (p0 :: rest) :=
      hG ▸ sortedDesc_sortValuesDescLast G
    have hub : ∀ q ∈ G, q.2 ≤ p0.2 := by
      intro q hq
      have hq2 : q ∈ p0 :: rest := by
        rw [← hG]
        exact (sortValuesDescLast_perm G).mem_iff.2 hq
      exact chain'_desc_head_ub rest p0 hdesc q hq2
    have hmax : p0.2 = maxVal G := by
      refine Nat.le_antisymm (le_maxVal hmemG) ?_
      obtain ⟨m, hm, hmv⟩ := maxVal_achieved (List.ne_nil_of_mem hmemG)
      rw [← hmv]
      exact hub m hm
    cases hf : G.find? (fun p => decide (maxVal G ≤ p.2)) with
    | none =>
      have := List.find?_eq_none.1 hf p0 hmemG
      simp [hmax] at this
    | some q0 =>
      have hq0mem : q0 ∈ G := List.mem_of_find?_eq_some hf
      have hq0p : q0.2 = maxVal G :=
        Nat.le_antisymm (le_maxVal hq0mem) (by simpa using List.find?_some hf)
      rw [hu p0 hmemG q0 hq0mem hmax hq0p]
      rfl

/-- Claim C10, counterexample: with batsmen "A" and "B" tied at the
maximal run total, the reporter's `idxmax` (line 281) names "A", the first
key attaining the maximum, while the reversed ascending order — what
pandas's `sort_values(ascending=False)` actually produces on a tied pair,
its unstable quicksort implementing descending as the reversed ascending
argsort — is itself descending-sorted, a permutation of the same grouped
series, and puts "B" first (line 146): the program does not guarantee the
claimed equality at tied maxima. -/
theorem claim_C10_counterexample :
    (print_summary [c8Row "A"] c10Deliveries).topRunScorer = some "A" ∧
    (((sortValuesDescLast c10Grouped).take 10).head?).map Prod.fst =
      some "B" ∧
    sortedDesc (sortValuesDescLast c10Grouped) ∧
    List.Perm (sortValuesDescLast c10Grouped) c10Grouped ∧
    (some "A" : Option String) ≠ some "B" := by
  have hle : (("A" : String) ≤ "B") := by
    rw [String.le_iff_toList_le]
    decide
  have h1 : dedupFirst (c10Deliveries.map Delivery.batsman) = ["A", "B"] := by
    decide
  have h2 : sortBy leKey ((["A", "B"]).map (fun k => (k, (0 : Nat)))) =
      [("A", 0), ("B", 0)] := by
    simp [sortBy, insertBy, leKey, hle]
  have hG : c10Grouped = [("A", 5), ("B", 5)] := by
    unfold c10Grouped groupbyAgg
    rw [h1, h2]
    decide
  refine ⟨?_, ?_, sortedDesc_sortValuesDescLast _,
    sortValuesDescLast_perm _, by decide⟩
  · show seriesIdxmax c10Grouped = some "A"
    rw [hG]
    decide
  · rw [hG]
    decide

/-- Claim C10 (amended): with at least one non-null winner, at least one
delivery row, and the maximal run total attained by a unique entry of the
per-batsman totals (so that the unspecified tie order of pandas's unstable
descending sort cannot matter), the reporter's most successful team is the
first entry of the team-wins table and its top run scorer is the first
entry of the top-batsmen table, both entries existing; the team equality
needs no uniqueness since both sides recompute the identical
`value_counts` expression. -/
theorem claim_C10 (ms : List MatchRow) (ds : List Delivery)
    (h1 : dropNone (ms.map MatchRow.winner) ≠ []) (h2 : ds ≠ [])
    (hu : ∀ p ∈ groupbyAgg ds Delivery.batsman
        (fun g => (g.map Delivery.batsman_runs).sum),
      ∀ q ∈ groupbyAgg ds Delivery.batsman
        (fun g => (g.map Delivery.batsman_runs).sum),
      p.2 = maxVal (groupbyAgg ds Delivery.batsman
        (fun g => (g.map Delivery.batsman_runs).sum)) →
      q.2 = maxVal (groupbyAgg ds Delivery.batsman
        (fun g => (g.map Delivery.batsman_runs).sum)) → p = q) :
    (print_summary ms ds).mostSuccessfulTeam =
      ((analysis_team_wins ms).head?).map Prod.fst ∧
    (print_summary ms ds).topRunScorer =
      ((analysis_top_batsmen ds).head?).map Prod.fst ∧
    (print_summary ms ds).topRunScorer =
      (((sortValuesDescLast (groupbyAgg ds Delivery.batsman
        (fun g => (g.map Delivery.batsman_runs).sum))).take 10).head?).map
        Prod.fst ∧
    (print_summary ms ds).mostSuccessfulTeam ≠ none ∧
    (print_summary ms ds).topRunScorer ≠ none := by
  refine ⟨?_, ?_, ?_, ?_, ?_⟩
  · show ((valueCounts (dropNone (ms.map MatchRow.winner))).head?).map
        Prod.fst = _
    unfold analysis_team_wins
    rw [List.head?_take, if_neg (by norm_num)]
  · show seriesIdxmax _ = _
    unfold analysis_top_batsmen seriesIdxmax
    rw [List.head?_take, if_neg (by norm_num), head?_sortBy_leCount]
  · show seriesIdxmax _ = _
    unfold seriesIdxmax
    rw [List.head?_take, if_neg (by norm_num),
      head?_sortValuesDescLast_of_uniqueMax _ hu]
  · show ((valueCounts (dropNone (ms.map MatchRow.winner))).head?).map
        Prod.fst ≠ none
    have hW := valueCounts_ne_nil h1
    cases hv : (valueCounts (dropNone (ms.map MatchRow.winner))).head? with
    | none => exact absurd (List.head?_eq_none_iff.1 hv) hW
    | some p => simp
  · show seriesIdxmax (groupbyAgg ds Delivery.batsman
      (fun g => (g.map Delivery.batsman_runs).sum)) ≠ none
    have hG := groupbyAgg_ne_nil h2 Delivery.batsman
      (fun g => (g.map Delivery.batsman_runs).sum)
    obtain ⟨p, hp, hpv⟩ := maxVal_achieved hG
    have hfs : ((groupbyAgg ds Delivery.batsman
        (fun g => (g.map Delivery.batsman_runs).sum)).find?
        (fun p => decide (maxVal (groupbyAgg ds Delivery.batsman
          (fun g => (g.map Delivery.batsman_runs).sum)) ≤ p.2))).isSome :=
      List.find?_isSome.2 ⟨p, hp, by simp [hpv]⟩
    unfold seriesIdxmax
    intro hc
    rw [Option.map_eq_none'] at hc
    rw [hc] at hfs
    simp at hfs

/-- Claim C10, witness: on a one-row matches table and one delivery (a
uniquely attained maximal run total), the reporter's headline team and
scorer are the heads of the two summary tables — under either admissible
tie order — and are present. -/
theorem claim_C10_witness :
    ((print_summary [c8Row "A"] [c3Delivery]).mostSuccessfulTeam =
      ((analysis_team_wins [c8Row "A"]).head?).map Prod.fst ∧
    (print_summary [c8Row "A"] [c3Delivery]).topRunScorer =
      ((analysis_top_batsmen [c3Delivery]).head?).map Prod.fst ∧
    (print_summary [c8Row "A"] [c3Delivery]).topRunScorer =
      (((sortValuesDescLast (groupbyAgg [c3Delivery] Delivery.batsman
        (fun g => (g.map Delivery.batsman_runs).sum))).take 10).head?).map
        Prod.fst ∧
    (print_summary [c8Row "A"] [c3Delivery]).mostSuccessfulTeam ≠ none ∧
    (print_summary [c8Row "A"] [c3Delivery]).topRunScorer ≠ none) :=
  claim_C10 [c8Row "A"] [c3Delivery] (by decide) (by decide) (by decide)

end IPL
